import Mathlib

/-!
Verification of the PCA teaching notebook
`Machine_Learning_2/Reference Material/190053-Reactors-DS-Tr2-Sec1-2-PCA.ipynb`.

The notebook is a linear sequence of pandas / scipy / scikit-learn calls:
read a CSV, drop rows with missing values, split off descriptive columns,
drop correlated columns, add 1, Box-Cox transform each column, standardize,
run PCA, build a dataframe of the first five component scores, join the
descriptive columns back in and inspect the result.

We embed dataframes as lists of rows of cells, with an explicit index, and
each notebook cell as an operation on that model.  The numeric library
routines (`scipy.stats.boxcox`, `StandardScaler`, `PCA`) live outside the
repository; the pipeline is parameterised over them, and their mathematical
properties (standardization to zero mean and unit variance, orthogonality of
principal-component scores) are modelled separately over the reals.
-/

namespace Reactors

/-- A cell of a dataframe: a missing value (NaN), a rational number, or a
string (the descriptive columns such as `Shrt_Desc` hold text). -/
inductive Cell where
  | nan : Cell
  | num : ℚ → Cell
  | str : String → Cell
deriving DecidableEq

/-- The parsed contents of a CSV file: a header of column names and the data
rows. -/
structure Table where
  cols : List String
  rows : List (List Cell)
deriving DecidableEq

/-- A pandas dataframe: row labels (the index), column names, and the rows. -/
structure DataFrame where
  index : List Cell
  cols : List String
  rows : List (List Cell)
deriving DecidableEq

/-- Modelled from the spec: `pd.read_csv` (an external pandas call, not code
of this repository) turns the parsed file into a dataframe whose index is the
default range index 0, 1, 2, .... -/
def readCsv (t : Table) : DataFrame :=
  ⟨(List.range t.rows.length).map (fun (i : ℕ) => Cell.num (i : ℚ)), t.cols, t.rows⟩

/-- Modelled from the spec: `DataFrame.dropna()` (external pandas call) keeps
exactly the rows that contain no missing value, together with their labels. -/
def DataFrame.dropna (df : DataFrame) : DataFrame :=
  let kept := (df.index.zip df.rows).filter (fun p => !(decide (Cell.nan ∈ p.2)))
  ⟨kept.map Prod.fst, df.cols, kept.map Prod.snd⟩

/-- Modelled from the spec: `df.iloc[:, ps]` (external pandas call) selects
the columns at the given positions; a position out of range raises an
IndexError, modelled as `none`. -/
def DataFrame.ilocCols (df : DataFrame) (ps : List Nat) : Option DataFrame :=
  if ∀ p ∈ ps, p < df.cols.length then
    some ⟨df.index, ps.map (fun p => df.cols.getD p ""),
          df.rows.map (fun r => ps.map (fun p => r.getD p Cell.nan))⟩
  else none

/-- Modelled from the spec: `df.drop(names, axis=1)` (external pandas call)
removes every column whose name is listed; a listed name that is not a column
raises a KeyError, modelled as `none`. -/
def DataFrame.drop (df : DataFrame) (names : List String) : Option DataFrame :=
  if ∀ nm ∈ names, nm ∈ df.cols then
    some ⟨df.index, df.cols.filter (fun c => !(decide (c ∈ names))),
          df.rows.map (fun r =>
            ((df.cols.zip r).filter (fun p => !(decide (p.1 ∈ names)))).map Prod.snd)⟩
  else none

/-- Modelled from the spec: `df.set_index(name)` (external pandas call) makes
the first column with the given name the index and removes it from the data;
a missing name raises a KeyError, modelled as `none`. -/
def DataFrame.setIndex (df : DataFrame) (name : String) : Option DataFrame :=
  match df.cols.findIdx? (fun c => decide (c = name)) with
  | none => none
  | some i => some ⟨df.rows.map (fun r => r.getD i Cell.nan),
                    df.cols.eraseIdx i,
                    df.rows.map (fun r => r.eraseIdx i)⟩

/-- The cell `nutr_df = nutr_df + 1`: pandas adds 1 to every numeric cell
(NaN + 1 stays NaN). -/
def DataFrame.addOne (df : DataFrame) : DataFrame :=
  ⟨df.index, df.cols, df.rows.map (fun r => r.map (fun c =>
    match c with
    | Cell.num q => Cell.num (q + 1)
    | c => c))⟩

/-- The column of a dataframe at position `i`, as the loop
`boxcox(nutr_df.loc[:, col])` reads it. -/
def DataFrame.colAt (df : DataFrame) (i : Nat) : List Cell :=
  df.rows.map (fun r => r.getD i Cell.nan)

/-- Modelled from the spec: `df.join(other)` (external pandas call) is a left
join on the index: each row of `df` is extended with the row of `other`
carrying the same label, or with NaN in every joined column when no label of
`other` matches. -/
def DataFrame.join (df other : DataFrame) : DataFrame :=
  ⟨df.index, df.cols ++ other.cols,
   (df.index.zip df.rows).map (fun p =>
     match (other.index.zip other.rows).find? (fun q => decide (q.1 = p.1)) with
     | some q => p.2 ++ q.2
     | none => p.2 ++ List.replicate other.cols.length Cell.nan)⟩

/-- Modelled from the spec: `df.rename(columns=m)` (external pandas call)
renames each column through the mapping, leaving unlisted names unchanged. -/
def DataFrame.rename (df : DataFrame) (m : List (String × String)) : DataFrame :=
  ⟨df.index,
   df.cols.map (fun c => (((m.find? (fun p => decide (p.1 = c))).map Prod.snd).getD c)),
   df.rows⟩

/-- Ordering of cells used by `sort_values`: numbers in numeric order, and
anything non-numeric (NaN) sorted after the numbers, as pandas does. -/
def cellLe : Cell → Cell → Bool
  | Cell.num a, Cell.num b => decide (a ≤ b)
  | Cell.num _, _ => true
  | _, _ => false

/-- Insertion into a sorted list, the auxiliary step of `sortRowsBy`. -/
def insertSortedBy {α : Type} (le : α → α → Bool) (a : α) : List α → List α
  | [] => [a]
  | b :: l => if le a b then a :: b :: l else b :: insertSortedBy le a l

/-- Insertion sort; used to model the row reordering of `sort_values`. -/
def sortRowsBy {α : Type} (le : α → α → Bool) : List α → List α
  | [] => []
  | a :: l => insertSortedBy le a (sortRowsBy le l)

/-- Modelled from the spec: `df.sort_values(by=name)` (external pandas call)
reorders the rows (with their labels) by the values of the named column. -/
def DataFrame.sortValues (df : DataFrame) (name : String) : DataFrame :=
  let j := df.cols.findIdx (fun c => decide (c = name))
  let sorted := sortRowsBy
    (fun a b => cellLe (a.2.getD j Cell.nan) (b.2.getD j Cell.nan))
    (df.index.zip df.rows)
  ⟨sorted.map Prod.fst, df.cols, sorted.map Prod.snd⟩

/-- Column selection by name, `df[name]`. -/
def DataFrame.colByName (df : DataFrame) (name : String) : List Cell :=
  df.colAt (df.cols.findIdx (fun c => decide (c = name)))

/-- Modelled from the spec: `Series.value_counts()` (external pandas call)
counts the occurrences of each distinct non-missing value; NaN entries are
excluded, so an all-NaN series yields an empty count. -/
def valueCounts (l : List Cell) : List (Cell × Nat) :=
  ((l.filter (fun c => !(decide (c = Cell.nan)))).dedup).map (fun v => (v, l.count v))

/-- The fixed path of the one `pd.read_csv` call of the notebook. -/
def csvPath : String := "Data/USDA-nndb-combined.csv"

/-- The fixed encoding of the one `pd.read_csv` call of the notebook. -/
def csvEncoding : String := "latin_1"

/-- The column positions `[0, 1, 2] + [i for i in range(50, 54)]` selected
for `desc_df`. -/
def descPositions : List Nat := [0, 1, 2] ++ (List.range 4).map (fun i => 50 + i)

/-- The correlated nutrient columns dropped from `nutr_df`. -/
def corrCols : List String := ["Folate_DFE_(µg)", "Vit_A_RAE", "Vit_D_IU"]

/-- The descriptive columns dropped from `pca_df` after the join. -/
def pcaDropNames : List String :=
  ["Shrt_Desc", "GmWt_Desc1", "GmWt_2", "GmWt_Desc2", "Refuse_Pct"]

/-- The renaming `{0:'c1', 1:'c2', 2:'c3', 3:'c4', 4:'c5'}` applied to
`pca_df` (integer column labels written as strings in this model). -/
def renameMap : List (String × String) :=
  [("0", "c1"), ("1", "c2"), ("2", "c3"), ("3", "c4"), ("4", "c5")]

/-- The result of `fit.fit_transform`: the score matrix together with the
explained-variance ratios of the fit. -/
structure PcaFit where
  scores : List (List Cell)
  evr : List ℚ
deriving DecidableEq

/-- Everything the notebook run produces that the later cells inspect: the
final `pca_df`, the PCA score matrix, and the explained-variance ratios. -/
structure RunResult where
  pcaDf : DataFrame
  scores : List (List Cell)
  evr : List ℚ
deriving DecidableEq

/-- A pandas failure (KeyError / IndexError) surfaced into the ambient error
type: the notebook defines no handler, so `none` becomes the library error. -/
def liftPandas {ε α : Type} (pe : ε) : Option α → Except ε α
  | none => Except.error pe
  | some a => Except.ok a

/-- The cell `df = pd.read_csv('Data/USDA-nndb-combined.csv',
encoding='latin_1')`: the single external read of the notebook, at the fixed
path and encoding. -/
def cellReadCsv {ε : Type} (file : String → String → Except ε Table) : Except ε Table :=
  file csvPath csvEncoding

/-- The cell `df = df.dropna()`. -/
def cellDropna (t : Table) : DataFrame := (readCsv t).dropna

/-- The cells building `desc_df`: `df.iloc[:, [0,1,2]+[i for i in
range(50,54)]]` followed by `set_index('NDB_No')`. -/
def cellDescDf (df : DataFrame) : Option DataFrame :=
  (df.ilocCols descPositions).bind (fun d => d.setIndex "NDB_No")

/-- The cells building `nutr_df`: `df.iloc[:, :-5]`, dropping `FoodGroup` and
`Shrt_Desc`, `set_index('NDB_No')`, then dropping the correlated columns. -/
def cellNutrDf (df : DataFrame) : Option DataFrame :=
  (df.ilocCols (List.range (df.cols.length - 5))).bind (fun n =>
    (n.drop ["FoodGroup", "Shrt_Desc"]).bind (fun n =>
      (n.setIndex "NDB_No").bind (fun n => n.drop corrCols)))

/-- The Box-Cox loop: `for col in nutr_df.columns.values:
nutr_df_TF['{}_TF'.format(col)] = boxcox(nutr_df.loc[:, col])[0]`, with
`boxcox` (an external scipy call) abstract; a non-positive input makes
`boxcox` raise, which the loop does not catch, so the first failing column
aborts the loop with the library error. -/
def boxcoxLoop {ε : Type} (bc : List Cell → Except ε (List Cell)) (df : DataFrame) :
    Except ε DataFrame :=
  (((List.range df.cols.length).map df.colAt).mapM bc).map (fun outCols =>
    ⟨df.index, df.cols.map (fun c => c ++ "_TF"),
     (List.range df.index.length).map (fun r => outCols.map (fun c => c.getD r Cell.nan))⟩)

/-- The cell `pca_df = pd.DataFrame(pca[:, :5], index=df.index)`: the first
five score columns, labelled by the default integer column labels, indexed by
the labels of the post-dropna `df`. -/
def cellPcaDf (scores : List (List Cell)) (idx : List Cell) : DataFrame :=
  ⟨idx, ["0", "1", "2", "3", "4"], scores.map (fun r => r.take 5)⟩

/-- The cell joining `desc_df` back onto `pca_df`, dropping the unused
descriptive columns and renaming the score columns to `c1`..`c5`. -/
def cellJoinDropRename (pdf desc : DataFrame) : Option DataFrame :=
  ((pdf.join desc).drop pcaDropNames).map (fun d => d.rename renameMap)

/-- The whole notebook pipeline, transcribed cell by cell in the order the
cells appear, parameterised over the external libraries: the file system and
CSV parser behind `pd.read_csv`, `scipy.stats.boxcox`,
`StandardScaler().fit_transform` and `PCA().fit_transform`.  Every library
failure propagates unchanged; the notebook installs no handler. -/
def notebookRun (ε : Type) (file : String → String → Except ε Table) (pe : ε)
    (bc : List Cell → Except ε (List Cell))
    (scale : List (List Cell) → Except ε (List (List Cell)))
    (pcaFit : List (List Cell) → Except ε PcaFit) : Except ε RunResult :=
  (file csvPath csvEncoding).bind (fun raw =>
    let df := (readCsv raw).dropna
    (liftPandas pe ((df.ilocCols descPositions).bind
        (fun d => d.setIndex "NDB_No"))).bind (fun desc =>
      (liftPandas pe ((df.ilocCols (List.range (df.cols.length - 5))).bind (fun n =>
          (n.drop ["FoodGroup", "Shrt_Desc"]).bind (fun n =>
            (n.setIndex "NDB_No").bind (fun n => n.drop corrCols))))).bind (fun nutr =>
        (boxcoxLoop bc nutr.addOne).bind (fun tf =>
          (scale tf.rows).bind (fun scaled =>
            (pcaFit scaled).bind (fun fit =>
              (liftPandas pe
                ((((cellPcaDf fit.scores df.index).join desc).drop pcaDropNames).map
                  (fun d => d.rename renameMap))).map
                (fun pdf => ⟨pdf, fit.scores, fit.evr⟩)))))))

/-- The notebook pipeline factors as the sequential composition of its cells:
read, dropna, build `desc_df`, build `nutr_df`, add one and Box-Cox, scale,
PCA, then build and decorate `pca_df`. -/
lemma notebookRun_eq_cells (ε : Type) (file : String → String → Except ε Table) (pe : ε)
    (bc : List Cell → Except ε (List Cell))
    (scale : List (List Cell) → Except ε (List (List Cell)))
    (pcaFit : List (List Cell) → Except ε PcaFit) :
    notebookRun ε file pe bc scale pcaFit =
      (cellReadCsv file).bind (fun raw =>
        let df := cellDropna raw
        (liftPandas pe (cellDescDf df)).bind (fun desc =>
          (liftPandas pe (cellNutrDf df)).bind (fun nutr =>
            (boxcoxLoop bc nutr.addOne).bind (fun tf =>
              (scale tf.rows).bind (fun scaled =>
                (pcaFit scaled).bind (fun fit =>
                  (liftPandas pe
                    (cellJoinDropRename (cellPcaDf fit.scores df.index) desc)).map
                    (fun pdf => ⟨pdf, fit.scores, fit.evr⟩))))))) := rfl

/-- Mapping a fallible function over a list fails with exactly the error of
the first failing element, when all earlier elements succeed. -/
lemma mapM_eq_error {ε α β : Type} (f : α → Except ε β) (l₁ : List α) (x : α)
    (l₂ : List α) (e : ε) (h₁ : ∀ a ∈ l₁, ∃ v, f a = Except.ok v)
    (hx : f x = Except.error e) : (l₁ ++ x :: l₂).mapM f = Except.error e := by
  induction l₁ with
  | nil =>
    simp only [List.nil_append, List.mapM_cons, hx]
    rfl
  | cons a t ih =>
    obtain ⟨v, hv⟩ := h₁ a (List.mem_cons_self a t)
    have ht := ih (fun b hb => h₁ b (List.mem_cons_of_mem a hb))
    simp only [List.cons_append, List.mapM_cons, hv, ht]
    rfl

/-- Zipping labels onto rows, filtering on the rows, and projecting the rows
back out is the same as filtering the rows, when the labels match up. -/
lemma zip_filter_snd {α β : Type} (p : β → Bool) :
    ∀ (idx : List α) (rows : List β), idx.length = rows.length →
      ((idx.zip rows).filter (fun q => p q.2)).map Prod.snd = rows.filter p := by
  intro idx
  induction idx with
  | nil =>
    intro rows h
    match rows with
    | [] => rfl
    | r :: rs => simp at h
  | cons a t ih =>
    intro rows h
    match rows with
    | [] => simp at h
    | r :: rs =>
      simp only [List.length_cons, Nat.succ.injEq] at h
      by_cases hp : p r
      · simp [List.zip_cons_cons, List.filter_cons, hp, ih rs h]
      · simp [List.zip_cons_cons, List.filter_cons, hp, ih rs h]

/-- C4.  The notebook's data path applies its operations in exactly the
order read CSV, drop NaN rows, drop descriptive and correlated columns
(the `desc_df` / `nutr_df` split), Box-Cox per column, standardize, PCA,
then build the inspected `pca_df`; each step consumes the output of the
previous one, so no step runs before its predecessor. -/
theorem c4_pipeline_order (ε : Type) (file : String → String → Except ε Table) (pe : ε)
    (bc : List Cell → Except ε (List Cell))
    (scale : List (List Cell) → Except ε (List (List Cell)))
    (pcaFit : List (List Cell) → Except ε PcaFit) :
    notebookRun ε file pe bc scale pcaFit =
      (cellReadCsv file).bind (fun raw =>
        let df := cellDropna raw
        (liftPandas pe (cellDescDf df)).bind (fun desc =>
          (liftPandas pe (cellNutrDf df)).bind (fun nutr =>
            (boxcoxLoop bc nutr.addOne).bind (fun tf =>
              (scale tf.rows).bind (fun scaled =>
                (pcaFit scaled).bind (fun fit =>
                  (liftPandas pe
                    (cellJoinDropRename (cellPcaDf fit.scores df.index) desc)).map
                    (fun pdf => ⟨pdf, fit.scores, fit.evr⟩))))))) :=
  notebookRun_eq_cells ε file pe bc scale pcaFit

/-- C7.  The pipeline is deterministic: it is a pure function of the file
contents, so two runs over byte-identical contents (with the same library
routines) produce identical final dataframes, score matrices and
explained-variance ratios, and no state crosses from one run to the other. -/
theorem c7_deterministic (ε : Type) (pe : ε)
    (bc : List Cell → Except ε (List Cell))
    (scale : List (List Cell) → Except ε (List (List Cell)))
    (pcaFit : List (List Cell) → Except ε PcaFit)
    (t₁ t₂ : Table) (h : t₁ = t₂) :
    notebookRun ε (fun _ _ => Except.ok t₁) pe bc scale pcaFit =
      notebookRun ε (fun _ _ => Except.ok t₂) pe bc scale pcaFit := by
  rw [h]

/-- Closed instance of `c7_deterministic` at a concrete one-row table and
concrete library routines. -/
theorem c7_deterministic_witness :
    notebookRun ℕ (fun _ _ => Except.ok ⟨["A"], [[Cell.num 1]]⟩) 0
        (fun l => Except.ok l) (fun m => Except.ok m) (fun m => Except.ok ⟨m, []⟩) =
      notebookRun ℕ (fun _ _ => Except.ok ⟨["A"], [[Cell.num 1]]⟩) 0
        (fun l => Except.ok l) (fun m => Except.ok m) (fun m => Except.ok ⟨m, []⟩) :=
  c7_deterministic ℕ 0 (fun l => Except.ok l) (fun m => Except.ok m)
    (fun m => Except.ok ⟨m, []⟩) ⟨["A"], [[Cell.num 1]]⟩ ⟨["A"], [[Cell.num 1]]⟩ rfl

/-- C3.  The notebook catches and converts nothing: a failure of the
`pd.read_csv` call (missing or malformed file) is the pipeline's result,
unmodified; a `boxcox` failure on the first failing column (for instance a
non-positive value) is the pipeline's result, unmodified; and the only
mitigation the code performs is `dropna`, which removes exactly the rows
containing a missing value before the transformation step. -/
theorem c3_errors_propagate_unmodified (ε : Type)
    (file : String → String → Except ε Table) (pe : ε)
    (bc : List Cell → Except ε (List Cell))
    (scale : List (List Cell) → Except ε (List (List Cell)))
    (pcaFit : List (List Cell) → Except ε PcaFit) :
    (∀ e, file csvPath csvEncoding = Except.error e →
      notebookRun ε file pe bc scale pcaFit = Except.error e)
    ∧ (∀ t desc nutr pre i post e,
        file csvPath csvEncoding = Except.ok t →
        cellDescDf (cellDropna t) = some desc →
        cellNutrDf (cellDropna t) = some nutr →
        List.range nutr.addOne.cols.length = pre ++ i :: post →
        (∀ p ∈ pre, ∃ v, bc (nutr.addOne.colAt p) = Except.ok v) →
        bc (nutr.addOne.colAt i) = Except.error e →
        notebookRun ε file pe bc scale pcaFit = Except.error e)
    ∧ (∀ t : Table, (cellDropna t).rows =
        (readCsv t).rows.filter (fun r => !(decide (Cell.nan ∈ r)))) := by
  refine ⟨?_, ?_, ?_⟩
  · intro e he
    rw [notebookRun_eq_cells]
    simp [cellReadCsv, he, Except.bind]
  · intro t desc nutr pre i post e ht hdesc hnutr hsplit hpre hbad
    rw [notebookRun_eq_cells]
    simp only [cellReadCsv, ht, Except.bind, cellDropna] at hdesc hnutr ⊢
    simp only [hdesc, hnutr, liftPandas, Except.bind]
    have hloop : boxcoxLoop bc nutr.addOne = Except.error e := by
      unfold boxcoxLoop
      rw [hsplit, List.map_append, List.map_cons]
      rw [mapM_eq_error _ _ _ _ e ?_ hbad]
      · rfl
      · intro a ha
        obtain ⟨pp, hpp, rfl⟩ := List.mem_map.mp ha
        exact hpre pp hpp
    rw [hloop]
  · intro t
    show (((readCsv t).index.zip (readCsv t).rows).filter
        (fun p => !(decide (Cell.nan ∈ p.2)))).map Prod.snd =
      (readCsv t).rows.filter (fun r => !(decide (Cell.nan ∈ r)))
    refine zip_filter_snd (fun r => !(decide (Cell.nan ∈ r)))
      (readCsv t).index (readCsv t).rows ?_
    show (readCsv t).index.length = t.rows.length
    simp [readCsv]

/-- Rows of a dataframe all have as many cells as there are columns. -/
def RowsWF (df : DataFrame) : Prop := ∀ r ∈ df.rows, r.length = df.cols.length

/-- Rows kept by `dropna` are rows of the input that contain no NaN. -/
lemma dropna_rows_sub (df : DataFrame) :
    ∀ r ∈ df.dropna.rows, r ∈ df.rows ∧ Cell.nan ∉ r := by
  intro r hr
  obtain ⟨p, hp, rfl⟩ := List.mem_map.mp hr
  have hmem := List.mem_filter.mp hp
  have h2 := (List.of_mem_zip hmem.1).2
  refine ⟨h2, ?_⟩
  have := hmem.2
  simp only [Bool.not_eq_eq_eq_not, Bool.not_true, decide_eq_false_iff_not] at this
  exact this

/-- The column names survive `dropna` unchanged. -/
lemma dropna_cols (df : DataFrame) : df.dropna.cols = df.cols := rfl

/-- Well-formedness survives `dropna`. -/
lemma rowsWF_dropna {df : DataFrame} (h : RowsWF df) : RowsWF df.dropna := by
  intro r hr
  exact (h r (dropna_rows_sub df r hr).1).trans rfl

/-- A successful `iloc` column selection only uses in-range positions. -/
lemma ilocCols_bound {df d : DataFrame} {ps : List Nat}
    (h : df.ilocCols ps = some d) : ∀ p ∈ ps, p < df.cols.length := by
  by_cases hb : ∀ p ∈ ps, p < df.cols.length
  · exact hb
  · rw [DataFrame.ilocCols, if_neg hb] at h
    exact absurd h (by simp)

/-- The shape of a successful `iloc` column selection. -/
lemma ilocCols_eq {df d : DataFrame} {ps : List Nat}
    (h : df.ilocCols ps = some d) :
    d = ⟨df.index, ps.map (fun p => df.cols.getD p ""),
         df.rows.map (fun r => ps.map (fun p => r.getD p Cell.nan))⟩ := by
  rw [DataFrame.ilocCols, if_pos (ilocCols_bound h)] at h
  exact (Option.some.injEq _ _ ▸ h).symm

/-- Columns selected by `iloc` are columns of the input. -/
lemma ilocCols_cols_sub {df d : DataFrame} {ps : List Nat}
    (h : df.ilocCols ps = some d) : ∀ c ∈ d.cols, c ∈ df.cols := by
  intro c hc
  rw [ilocCols_eq h] at hc
  obtain ⟨p, hp, rfl⟩ := List.mem_map.mp hc
  have hlt := ilocCols_bound h p hp
  rw [List.getD_eq_getElem?_getD, List.getElem?_eq_getElem hlt]
  exact List.getElem_mem hlt

/-- The output of `iloc` is well formed whatever the input was. -/
lemma rowsWF_ilocCols {df d : DataFrame} {ps : List Nat}
    (h : df.ilocCols ps = some d) : RowsWF d := by
  rw [ilocCols_eq h]
  intro r hr
  obtain ⟨r₀, _, rfl⟩ := List.mem_map.mp hr
  simp

/-- Every cell of an `iloc` selection is a cell of the corresponding input
row, provided the input rows are well formed. -/
lemma ilocCols_cells {df d : DataFrame} {ps : List Nat} (hwf : RowsWF df)
    (h : df.ilocCols ps = some d) :
    ∀ r ∈ d.rows, ∀ c ∈ r, ∃ r₀ ∈ df.rows, c ∈ r₀ := by
  intro r hr c hc
  rw [ilocCols_eq h] at hr
  obtain ⟨r₀, hr₀, rfl⟩ := List.mem_map.mp hr
  obtain ⟨p, hp, rfl⟩ := List.mem_map.mp hc
  refine ⟨r₀, hr₀, ?_⟩
  have hlt : p < r₀.length := by
    rw [hwf r₀ hr₀]
    exact ilocCols_bound h p hp
  rw [List.getD_eq_getElem?_getD, List.getElem?_eq_getElem hlt]
  exact List.getElem_mem hlt

/-- A `drop` of a column name that is not present fails with a KeyError. -/
lemma drop_none {df : DataFrame} {names : List String} {nm : String}
    (hmem : nm ∈ names) (habs : nm ∉ df.cols) : df.drop names = none := by
  rw [DataFrame.drop, if_neg]
  intro hall
  exact habs (hall nm hmem)

/-- The shape of a successful column `drop`. -/
lemma drop_eq {df d : DataFrame} {names : List String}
    (h : df.drop names = some d) :
    d = ⟨df.index, df.cols.filter (fun c => !(decide (c ∈ names))),
         df.rows.map (fun r =>
           ((df.cols.zip r).filter (fun p => !(decide (p.1 ∈ names)))).map Prod.snd)⟩ := by
  by_cases hall : ∀ nm ∈ names, nm ∈ df.cols
  · rw [DataFrame.drop, if_pos hall] at h
    exact (Option.some.injEq _ _ ▸ h).symm
  · rw [DataFrame.drop, if_neg hall] at h
    exact absurd h (by simp)

/-- Columns kept by `drop` are columns of the input. -/
lemma drop_cols_sub {df d : DataFrame} {names : List String}
    (h : df.drop names = some d) : ∀ c ∈ d.cols, c ∈ df.cols := by
  intro c hc
  rw [drop_eq h] at hc
  exact (List.mem_filter.mp hc).1

/-- A kept column name is still present after a `drop`. -/
lemma drop_mem_cols {df d : DataFrame} {names : List String} {c : String}
    (h : df.drop names = some d) (hc : c ∈ df.cols) (hn : c ∉ names) :
    c ∈ d.cols := by
  rw [drop_eq h]
  exact List.mem_filter.mpr ⟨hc, by simpa using hn⟩

/-- Every cell surviving a column `drop` is a cell of its input row. -/
lemma drop_cells {df d : DataFrame} {names : List String}
    (h : df.drop names = some d) :
    ∀ r ∈ d.rows, ∀ c ∈ r, ∃ r₀ ∈ df.rows, c ∈ r₀ := by
  intro r hr c hc
  rw [drop_eq h] at hr
  obtain ⟨r₀, hr₀, rfl⟩ := List.mem_map.mp hr
  obtain ⟨p, hp, rfl⟩ := List.mem_map.mp hc
  exact ⟨r₀, hr₀, (List.of_mem_zip (List.mem_filter.mp hp).1).2⟩

/-- Filtering a zipped list on the first component keeps as many entries as
filtering the first list, when the lengths agree. -/
lemma zip_filter_fst_length {α β : Type} (q : α → Bool) :
    ∀ (cols : List α) (r : List β), cols.length = r.length →
      ((cols.zip r).filter (fun p => q p.1)).length = (cols.filter q).length := by
  intro cols
  induction cols with
  | nil => intro r h; rfl
  | cons a t ih =>
    intro r h
    match r with
    | [] => simp at h
    | b :: rs =>
      simp only [List.length_cons, Nat.succ.injEq] at h
      by_cases hq : q a
      · simp [List.zip_cons_cons, List.filter_cons, hq, ih rs h]
      · simp [List.zip_cons_cons, List.filter_cons, hq, ih rs h]

/-- The output of a successful `drop` is well formed when the input is. -/
lemma rowsWF_drop {df d : DataFrame} {names : List String} (hwf : RowsWF df)
    (h : df.drop names = some d) : RowsWF d := by
  rw [drop_eq h]
  intro r hr
  obtain ⟨r₀, hr₀, rfl⟩ := List.mem_map.mp hr
  simp only [List.length_map]
  exact zip_filter_fst_length (fun c => !(decide (c ∈ names))) df.cols r₀ (hwf r₀ hr₀).symm

/-- `set_index` with a name that labels no column fails with a KeyError. -/
lemma setIndex_none {df : DataFrame} {name : String}
    (h : ∀ c ∈ df.cols, c ≠ name) : df.setIndex name = none := by
  rw [DataFrame.setIndex]
  have : df.cols.findIdx? (fun c => decide (c = name)) = none := by
    rw [List.findIdx?_eq_none_iff]
    intro c hc
    simpa using h c hc
  rw [this]

/-- The data of a successful `set_index`, in terms of the found position. -/
lemma setIndex_eq {df d : DataFrame} {name : String} {i : Nat}
    (hf : df.cols.findIdx? (fun c => decide (c = name)) = some i)
    (h : df.setIndex name = some d) :
    d = ⟨df.rows.map (fun r => r.getD i Cell.nan), df.cols.eraseIdx i,
         df.rows.map (fun r => r.eraseIdx i)⟩ := by
  rw [DataFrame.setIndex, hf] at h
  exact (Option.some.injEq _ _ ▸ h).symm

/-- Columns kept by `set_index` are columns of the input. -/
lemma setIndex_cols_sub {df d : DataFrame} {name : String}
    (h : df.setIndex name = some d) : ∀ c ∈ d.cols, c ∈ df.cols := by
  intro c hc
  rw [DataFrame.setIndex] at h
  match hf : df.cols.findIdx? (fun c => decide (c = name)) with
  | none => rw [hf] at h; exact absurd h (by simp)
  | some i =>
    rw [hf] at h
    have := (Option.some.injEq _ _ ▸ h).symm
    rw [this] at hc
    exact List.eraseIdx_subset _ _ hc

/-- Every cell surviving `set_index` is a cell of its input row. -/
lemma setIndex_cells {df d : DataFrame} {name : String}
    (h : df.setIndex name = some d) :
    ∀ r ∈ d.rows, ∀ c ∈ r, ∃ r₀ ∈ df.rows, c ∈ r₀ := by
  intro r hr c hc
  rw [DataFrame.setIndex] at h
  match hf : df.cols.findIdx? (fun c => decide (c = name)) with
  | none => rw [hf] at h; exact absurd h (by simp)
  | some i =>
    rw [hf] at h
    have hd := (Option.some.injEq _ _ ▸ h).symm
    rw [hd] at hr
    obtain ⟨r₀, hr₀, rfl⟩ := List.mem_map.mp hr
    exact ⟨r₀, hr₀, List.eraseIdx_subset _ _ hc⟩

/-- The output of a successful `set_index` is well formed when the input is. -/
lemma rowsWF_setIndex {df d : DataFrame} {name : String} (hwf : RowsWF df)
    (h : df.setIndex name = some d) : RowsWF d := by
  rw [DataFrame.setIndex] at h
  match hf : df.cols.findIdx? (fun c => decide (c = name)) with
  | none => rw [hf] at h; exact absurd h (by simp)
  | some i =>
    rw [hf] at h
    have hd := (Option.some.injEq _ _ ▸ h).symm
    have hi : i < df.cols.length := by
      have := List.findIdx?_eq_some_iff_findIdx_eq.mp hf
      exact this.1
    rw [hd]
    intro r hr
    obtain ⟨r₀, hr₀, rfl⟩ := List.mem_map.mp hr
    rw [List.length_eraseIdx_of_lt (by rw [hwf r₀ hr₀]; exact hi),
        List.length_eraseIdx_of_lt hi, hwf r₀ hr₀]

/-- Unfolding of `cellNutrDf` into its four pandas stages. -/
lemma cellNutrDf_chain {df nutr : DataFrame}
    (h : cellNutrDf df = some nutr) :
    ∃ n₀ n₁ n₂, df.ilocCols (List.range (df.cols.length - 5)) = some n₀ ∧
      n₀.drop ["FoodGroup", "Shrt_Desc"] = some n₁ ∧
      n₁.setIndex "NDB_No" = some n₂ ∧ n₂.drop corrCols = some nutr := by
  unfold cellNutrDf at h
  obtain ⟨n₀, h₀, h'⟩ := Option.bind_eq_some.mp h
  obtain ⟨n₁, h₁, h''⟩ := Option.bind_eq_some.mp h'
  obtain ⟨n₂, h₂, h₃⟩ := Option.bind_eq_some.mp h''
  exact ⟨n₀, n₁, n₂, h₀, h₁, h₂, h₃⟩

/-- Every cell of the prepared `nutr_df` is a cell of some post-dropna row,
and the prepared frame is well formed. -/
lemma cellNutrDf_cells {df nutr : DataFrame} (hwf : RowsWF df)
    (h : cellNutrDf df = some nutr) :
    RowsWF nutr ∧ ∀ r ∈ nutr.rows, ∀ c ∈ r, ∃ r₀ ∈ df.rows, c ∈ r₀ := by
  obtain ⟨n₀, n₁, n₂, h₀, h₁, h₂, h₃⟩ := cellNutrDf_chain h
  have w₀ := rowsWF_ilocCols h₀
  have w₁ := rowsWF_drop w₀ h₁
  have w₂ := rowsWF_setIndex w₁ h₂
  have w₃ := rowsWF_drop w₂ h₃
  refine ⟨w₃, ?_⟩
  intro r hr c hc
  obtain ⟨r₂, hr₂, hc₂⟩ := drop_cells h₃ r hr c hc
  obtain ⟨r₁, hr₁, hc₁⟩ := setIndex_cells h₂ r₂ hr₂ c hc₂
  obtain ⟨rA, hrA, hcA⟩ := drop_cells h₁ r₁ hr₁ c hc₁
  exact ilocCols_cells hwf h₀ rA hrA c hcA

/-- C2.  If every value of `nutr_df` (the nutrient frame prepared from the
post-dropna dataframe) is non-negative, then after `nutr_df = nutr_df + 1`
every value the per-column transform loop passes to `boxcox` is NaN-free and
strictly positive, so the Box-Cox failure branch for non-positive input is
unreachable under that precondition. -/
theorem c2_boxcox_inputs_positive (t : Table)
    (hWF : ∀ r ∈ t.rows, r.length = t.cols.length)
    (nutr : DataFrame) (hn : cellNutrDf (cellDropna t) = some nutr)
    (hpos : ∀ r ∈ nutr.rows, ∀ c ∈ r, ∀ q : ℚ, c = Cell.num q → 0 ≤ q) :
    ∀ i < nutr.addOne.cols.length, ∀ c ∈ nutr.addOne.colAt i,
      c ≠ Cell.nan ∧ ∀ q : ℚ, c = Cell.num q → 0 < q := by
  have hwf0 : RowsWF (cellDropna t) := by
    refine rowsWF_dropna ?_
    intro r hr
    exact hWF r hr
  obtain ⟨hwfn, hcells⟩ := cellNutrDf_cells hwf0 hn
  intro i hi c hc
  obtain ⟨r', hr', hcr⟩ := List.mem_map.mp hc
  obtain ⟨r, hr, rfl⟩ := List.mem_map.mp hr'
  have hilt : i < r.length := by
    rw [hwfn r hr]
    exact hi
  have hmlt : i < (r.map (fun c =>
      match c with
      | Cell.num q => Cell.num (q + 1)
      | c => c)).length := by
    rw [List.length_map]; exact hilt
  rw [List.getD_eq_getElem?_getD, List.getElem?_eq_getElem hmlt] at hcr
  rw [List.getElem_map] at hcr
  set c₀ := r[i] with hc₀
  have hc₀r : c₀ ∈ r := List.getElem_mem hilt
  have hnec₀ : c₀ ≠ Cell.nan := by
    obtain ⟨r₀, hr₀, hcr₀⟩ := hcells r hr c₀ hc₀r
    have := (dropna_rows_sub (readCsv t) r₀ hr₀).2
    intro hcontra
    rw [hcontra] at hcr₀
    exact this hcr₀
  subst hcr
  match hm : c₀ with
  | Cell.nan => exact absurd rfl hnec₀
  | Cell.num q =>
    refine ⟨by simp, ?_⟩
    intro q' hq'
    have hq : q + 1 = q' := by
      simpa using hq'
    have h0 : (0 : ℚ) ≤ q := hpos r hr (Cell.num q) (hm ▸ hc₀r) q rfl
    rw [← hq]
    linarith
  | Cell.str s =>
    refine ⟨by simp, ?_⟩
    intro q' hq'
    simp at hq'

/-- A concrete 12-column, 1-row table on which `cellNutrDf` succeeds. -/
def c2TableW : Table :=
  ⟨["NDB_No", "FoodGroup", "Shrt_Desc", "Folate_DFE_(µg)", "Vit_A_RAE", "Vit_D_IU",
    "N1", "T1", "T2", "T3", "T4", "T5"],
   [[Cell.num 1, Cell.str "A", Cell.str "B", Cell.num 0, Cell.num 0, Cell.num 0,
     Cell.num 2, Cell.num 0, Cell.num 0, Cell.num 0, Cell.num 0, Cell.num 0]]⟩

/-- The nutrient frame `cellNutrDf` produces from `c2TableW`. -/
def c2NutrW : DataFrame := ⟨[Cell.num 1], ["N1"], [[Cell.num 2]]⟩

/-- Closed instance of `c2_boxcox_inputs_positive` at `c2TableW`: its one
nutrient value 2 is non-negative, and after the `+ 1` cell the value passed
to `boxcox` is the strictly positive 3. -/
theorem c2_boxcox_inputs_positive_witness :
    cellNutrDf (cellDropna c2TableW) = some c2NutrW ∧
    ∀ i < c2NutrW.addOne.cols.length, ∀ c ∈ c2NutrW.addOne.colAt i,
      c ≠ Cell.nan ∧ ∀ q : ℚ, c = Cell.num q → 0 < q := by
  have hn : cellNutrDf (cellDropna c2TableW) = some c2NutrW := by decide
  refine ⟨hn, c2_boxcox_inputs_positive c2TableW (by decide) c2NutrW hn ?_⟩
  intro r hr c hc q hq
  have hr' : r = [Cell.num 2] := by simpa [c2NutrW] using hr
  subst hr'
  have hc' : c = Cell.num 2 := by simpa using hc
  subst hc'
  have hq2 : (2 : ℚ) = q := by injection hq
  rw [← hq2]
  norm_num

/-- Closed instance of `c3_errors_propagate_unmodified`: a read failure with
library error 7 makes the run fail with exactly error 7. -/
theorem c3_errors_propagate_unmodified_witness :
    notebookRun ℕ (fun _ _ => Except.error 7) 0 (fun l => Except.ok l)
      (fun m => Except.ok m) (fun m => Except.ok ⟨m, []⟩) = Except.error 7 :=
  (c3_errors_propagate_unmodified ℕ (fun _ _ => Except.error 7) 0
    (fun l => Except.ok l) (fun m => Except.ok m) (fun m => Except.ok ⟨m, []⟩)).1 7 rfl

/-- The named columns the notebook addresses that every successful run needs:
the identifier made the index, the two descriptive columns dropped from
`nutr_df`, and the three correlated nutrient columns dropped by name. -/
def requiredColumns : List String :=
  ["NDB_No", "FoodGroup", "Shrt_Desc", "Folate_DFE_(µg)", "Vit_A_RAE", "Vit_D_IU"]

/-- `df.iloc[:, :-5]` always succeeds: all selected positions are in range. -/
lemma iloc_range_some (df : DataFrame) :
    ∃ n₀, df.ilocCols (List.range (df.cols.length - 5)) = some n₀ := by
  rw [DataFrame.ilocCols, if_pos]
  · exact ⟨_, rfl⟩
  · intro p hp
    have := List.mem_range.mp hp
    omega

/-- Building `desc_df` fails when no column is named `NDB_No`. -/
lemma cellDescDf_none {df : DataFrame} (h : "NDB_No" ∉ df.cols) :
    cellDescDf df = none := by
  unfold cellDescDf
  cases hi : df.ilocCols descPositions with
  | none => rfl
  | some d =>
    rw [Option.some_bind]
    refine setIndex_none ?_
    intro c hc hcontra
    rw [hcontra] at hc
    exact h (ilocCols_cols_sub hi _ hc)

/-- Building `nutr_df` fails when any of the five columns it drops by name is
missing from the dataframe. -/
lemma cellNutrDf_none {df : DataFrame} {c : String}
    (hc : c ∈ ["FoodGroup", "Shrt_Desc"] ++ corrCols) (h : c ∉ df.cols) :
    cellNutrDf df = none := by
  obtain ⟨n₀, h₀⟩ := iloc_range_some df
  unfold cellNutrDf
  rw [h₀, Option.some_bind]
  have hsub₀ := ilocCols_cols_sub h₀
  rcases List.mem_append.mp hc with hfs | hcorr
  · rw [drop_none hfs (fun hmem => h (hsub₀ _ hmem))]
    rfl
  · cases h₁ : n₀.drop ["FoodGroup", "Shrt_Desc"] with
    | none => rfl
    | some n₁ =>
      have hsub₁ := drop_cols_sub h₁
      rw [Option.some_bind]
      cases h₂ : n₁.setIndex "NDB_No" with
      | none => rfl
      | some n₂ =>
        have hsub₂ := setIndex_cols_sub h₂
        rw [Option.some_bind]
        exact drop_none hcorr (fun hmem => h (hsub₀ _ (hsub₁ _ (hsub₂ _ hmem))))

/-- The pipeline after a successful read, with the read substituted in. -/
lemma notebookRun_ok {ε : Type} {file : String → String → Except ε Table} {t : Table}
    (pe : ε) (bc : List Cell → Except ε (List Cell))
    (scale : List (List Cell) → Except ε (List (List Cell)))
    (pcaFit : List (List Cell) → Except ε PcaFit)
    (hfile : file csvPath csvEncoding = Except.ok t) :
    notebookRun ε file pe bc scale pcaFit =
      (liftPandas pe (cellDescDf (cellDropna t))).bind (fun desc =>
        (liftPandas pe (cellNutrDf (cellDropna t))).bind (fun nutr =>
          (boxcoxLoop bc nutr.addOne).bind (fun tf =>
            (scale tf.rows).bind (fun scaled =>
              (pcaFit scaled).bind (fun fit =>
                (liftPandas pe (cellJoinDropRename
                    (cellPcaDf fit.scores (cellDropna t).index) desc)).map
                  (fun pdf => ⟨pdf, fit.scores, fit.evr⟩)))))) := by
  rw [notebookRun_eq_cells]
  simp only [cellReadCsv, hfile]
  rfl

/-- C6.  The notebook reads its dataset through exactly one external
interface, a single `pd.read_csv` call at the fixed path
`Data/USDA-nndb-combined.csv` with the fixed encoding `latin_1`, and every
successful run needs the named columns the downstream code addresses
(`NDB_No`, `FoodGroup`, `Shrt_Desc`, `Folate_DFE_(µg)`, `Vit_A_RAE`,
`Vit_D_IU`): if any of them is absent from the file, a later step fails. -/
theorem c6_single_fixed_csv_interface (ε : Type)
    (file : String → String → Except ε Table) (pe : ε)
    (bc : List Cell → Except ε (List Cell))
    (scale : List (List Cell) → Except ε (List (List Cell)))
    (pcaFit : List (List Cell) → Except ε PcaFit) (t : Table) :
    csvPath = "Data/USDA-nndb-combined.csv" ∧ csvEncoding = "latin_1" ∧
    (∀ c ∈ requiredColumns, c ∉ t.cols → file csvPath csvEncoding = Except.ok t →
      notebookRun ε file pe bc scale pcaFit = Except.error pe) := by
  refine ⟨rfl, rfl, ?_⟩
  intro c hc hnot hfile
  rw [notebookRun_ok pe bc scale pcaFit hfile]
  have hcols : (cellDropna t).cols = t.cols := rfl
  simp only [requiredColumns, List.mem_cons, List.not_mem_nil, or_false] at hc
  rcases hc with rfl | hc
  · rw [cellDescDf_none (by rwa [hcols])]
    rfl
  · cases hdesc : cellDescDf (cellDropna t) with
    | none => rfl
    | some desc =>
      have hnutr : cellNutrDf (cellDropna t) = none := by
        refine cellNutrDf_none ?_ (by rwa [hcols])
        rcases hc with rfl | rfl | rfl | rfl | rfl <;> decide
      rw [hnutr]
      rfl

/-- Closed instance of `c6_single_fixed_csv_interface`: a one-column file
without `NDB_No` makes the run fail with the pandas error. -/
theorem c6_single_fixed_csv_interface_witness :
    ("NDB_No" ∈ requiredColumns ∧ "NDB_No" ∉ (⟨["A"], []⟩ : Table).cols) ∧
    notebookRun ℕ (fun _ _ => Except.ok ⟨["A"], []⟩) 5 (fun l => Except.ok l)
      (fun m => Except.ok m) (fun m => Except.ok ⟨m, []⟩) = Except.error 5 :=
  ⟨⟨by decide, by decide⟩,
    (c6_single_fixed_csv_interface ℕ (fun _ _ => Except.ok ⟨["A"], []⟩) 5
      (fun l => Except.ok l) (fun m => Except.ok m) (fun m => Except.ok ⟨m, []⟩)
      ⟨["A"], []⟩).2.2 "NDB_No" (by decide) (by decide) rfl⟩

/-- Mean of a column, `x.mean()` (numpy default). -/
noncomputable def colMean {n : ℕ} (x : Fin n → ℝ) : ℝ := (∑ i, x i) / n

/-- Population variance of a column (ddof = 0, as numpy's `std` and
scikit-learn's scaler use). -/
noncomputable def popVar {n : ℕ} (x : Fin n → ℝ) : ℝ := (∑ i, (x i - colMean x) ^ 2) / n

/-- Population standard deviation of a column, `x.std()`. -/
noncomputable def popStd {n : ℕ} (x : Fin n → ℝ) : ℝ := Real.sqrt (popVar x)

/-- Modelled from the spec: `StandardScaler().fit_transform` (an external
scikit-learn call, not code of this repository) centers each column to zero
mean and scales it to unit variance, replacing each entry by
`(x - mean) / std` of its column. -/
noncomputable def standardScale {n p : ℕ} (X : Fin n → Fin p → ℝ) : Fin n → Fin p → ℝ :=
  fun i j => (X i j - colMean (fun k => X k j)) / popStd (fun k => X k j)

/-- C5.  After `nutr_df_TF = StandardScaler().fit_transform(nutr_df_TF)`,
every column with a nonzero standard deviation has mean 0 and standard
deviation 1, which is what the subsequent `mean()` and `std()` check cells
print (rounded) for every column. -/
theorem c5_standardized_mean_zero_std_one {n p : ℕ} (X : Fin n → Fin p → ℝ) (j : Fin p)
    (hσ : popStd (fun k => X k j) ≠ 0) :
    colMean (fun k => standardScale X k j) = 0 ∧
      popStd (fun k => standardScale X k j) = 1 := by
  have hn : (n : ℝ) ≠ 0 := by
    intro h0
    apply hσ
    unfold popStd popVar
    rw [h0, div_zero, Real.sqrt_zero]
  set μ := colMean (fun k => X k j) with hμ
  set σ := popStd (fun k => X k j) with hσdef
  have hsum : (∑ i, (X i j - μ)) = 0 := by
    rw [Finset.sum_sub_distrib, Finset.sum_const, Finset.card_univ, Fintype.card_fin, hμ]
    unfold colMean
    rw [nsmul_eq_mul, mul_div_cancel₀ _ hn]
    ring
  have hmean : colMean (fun k => standardScale X k j) = 0 := by
    unfold colMean standardScale
    rw [← hμ, ← hσdef, ← Finset.sum_div, hsum, zero_div, zero_div]
  refine ⟨hmean, ?_⟩
  have hv0 : 0 ≤ popVar (fun k => X k j) := by
    unfold popVar
    apply div_nonneg
    · apply Finset.sum_nonneg
      intro i _
      positivity
    · positivity
  have hσ2 : σ ^ 2 = popVar (fun k => X k j) := by
    rw [hσdef]
    unfold popStd
    exact Real.sq_sqrt hv0
  have hvne : popVar (fun k => X k j) ≠ 0 := by
    intro h0
    apply hσ
    rw [hσdef]
    unfold popStd
    rw [h0, Real.sqrt_zero]
  have hps : (∑ i, (X i j - μ) ^ 2) = popVar (fun k => X k j) * n := by
    unfold popVar
    rw [← hμ, div_mul_cancel₀ _ hn]
  have hvar : popVar (fun k => standardScale X k j) = 1 := by
    unfold popVar
    rw [hmean]
    have hterm : ∀ i : Fin n, (standardScale X i j - 0) ^ 2 = (X i j - μ) ^ 2 / σ ^ 2 := by
      intro i
      unfold standardScale
      rw [← hμ, ← hσdef, sub_zero, div_pow]
    rw [Finset.sum_congr rfl (fun i _ => hterm i), ← Finset.sum_div, hps, hσ2]
    rw [mul_comm, mul_div_assoc, div_self hvne, mul_one, div_self hn]
  unfold popStd
  rw [hvar, Real.sqrt_one]

/-- Closed instance of `c5_standardized_mean_zero_std_one` on the two-point
column (1, -1): its standard deviation 1 is nonzero, and the scaled column
has mean 0 and standard deviation 1. -/
theorem c5_standardized_mean_zero_std_one_witness :
    popStd (fun k => (![![(1 : ℝ)], ![(-1 : ℝ)]]) k (0 : Fin 1)) ≠ 0 ∧
    (colMean (fun k => standardScale ![![(1 : ℝ)], ![(-1 : ℝ)]] k (0 : Fin 1)) = 0 ∧
      popStd (fun k => standardScale ![![(1 : ℝ)], ![(-1 : ℝ)]] k (0 : Fin 1)) = 1) := by
  have hσ : popStd (fun k => (![![(1 : ℝ)], ![(-1 : ℝ)]]) k (0 : Fin 1)) ≠ 0 := by
    have hv : popVar (fun k => (![![(1 : ℝ)], ![(-1 : ℝ)]]) k (0 : Fin 1)) = 1 := by
      unfold popVar colMean
      rw [Fin.sum_univ_two, Fin.sum_univ_two]
      norm_num
    unfold popStd
    rw [hv, Real.sqrt_one]
    norm_num
  exact ⟨hσ, c5_standardized_mean_zero_std_one ![![(1 : ℝ)], ![(-1 : ℝ)]] 0 hσ⟩

/-- The Gram matrix `Xᵀ X` of the (standardized, hence centered) data fed to
`PCA()`: proportional to the covariance matrix whose eigenvectors PCA finds. -/
noncomputable def gram {n p : ℕ} (X : Fin n → Fin p → ℝ) (k m : Fin p) : ℝ :=
  ∑ i, X i k * X i m

/-- Modelled from the spec: `pca = fit.fit_transform(nutr_df_TF)` (an
external scikit-learn call, not code of this repository) projects the data
onto the principal axes: column `j` of the score matrix is `X` applied to the
`j`-th eigenvector of the covariance matrix. -/
noncomputable def pcaScore {n p : ℕ} (X : Fin n → Fin p → ℝ) (V : Fin p → Fin p → ℝ)
    (j : Fin p) : Fin n → ℝ :=
  fun i => ∑ k, X i k * V k j

/-- Modelled from the spec: the Pearson correlation `pca_df.corr()` computes
between two columns: the centered cross sum divided by the product of the
centered norms. -/
noncomputable def pearsonCorr {n : ℕ} (u v : Fin n → ℝ) : ℝ :=
  (∑ i, (u i - colMean u) * (v i - colMean v)) /
    (Real.sqrt (∑ i, (u i - colMean u) ^ 2) * Real.sqrt (∑ i, (v i - colMean v) ^ 2))

/-- Columns of the PCA score matrix have mean zero when the data columns are
centered. -/
lemma pcaScore_mean_zero {n p : ℕ} (X : Fin n → Fin p → ℝ) (V : Fin p → Fin p → ℝ)
    (hcent : ∀ k, (∑ i, X i k) = 0) (j : Fin p) :
    colMean (pcaScore X V j) = 0 := by
  unfold colMean pcaScore
  have h1 : (∑ i, ∑ k, X i k * V k j) = ∑ k, (∑ i, X i k) * V k j := by
    rw [Finset.sum_comm]
    exact Finset.sum_congr rfl (fun k _ => (Finset.sum_mul _ _ _).symm)
  rw [h1, Finset.sum_eq_zero, zero_div]
  intro k _
  rw [hcent k, zero_mul]

/-- C1.  For the decomposition `pca = fit.fit_transform(nutr_df_TF)` of the
centered data, the principal-component score columns are mutually
uncorrelated: when `V` holds pairwise orthogonal eigenvectors of the
covariance (Gram) matrix and the score columns are nondegenerate, the Pearson
correlation between any two distinct score columns (in particular the five
kept as `c1`..`c5`) is zero, so every off-diagonal entry of `pca_df.corr()`
restricted to those columns is zero. -/
theorem c1_pca_scores_uncorrelated {n p : ℕ} (X : Fin n → Fin p → ℝ)
    (V : Fin p → Fin p → ℝ)
    (hcent : ∀ k, (∑ i, X i k) = 0)
    (heig : ∀ j, ∃ lam : ℝ, ∀ k, (∑ m, gram X k m * V m j) = lam * V k j)
    (horth : ∀ j j' : Fin p, j ≠ j' → (∑ k, V k j * V k j') = 0)
    (hvar : ∀ j, (∑ i, (pcaScore X V j i - colMean (pcaScore X V j)) ^ 2) ≠ 0) :
    ∀ j j' : Fin p, j ≠ j' →
      pearsonCorr (pcaScore X V j) (pcaScore X V j') = 0 := by
  intro j j' hjj
  obtain ⟨lam, hlam⟩ := heig j'
  have key : (∑ i, pcaScore X V j i * pcaScore X V j' i) = 0 := by
    calc ∑ i, pcaScore X V j i * pcaScore X V j' i
        = ∑ i, ∑ k, ∑ m, (X i k * V k j) * (X i m * V m j') := by
          refine Finset.sum_congr rfl (fun i _ => ?_)
          unfold pcaScore
          rw [Finset.sum_mul_sum]
      _ = ∑ k, ∑ m, ∑ i, (X i k * V k j) * (X i m * V m j') := by
          rw [Finset.sum_comm]
          exact Finset.sum_congr rfl (fun k _ => Finset.sum_comm)
      _ = ∑ k, V k j * (∑ m, gram X k m * V m j') := by
          refine Finset.sum_congr rfl (fun k _ => ?_)
          rw [Finset.mul_sum]
          refine Finset.sum_congr rfl (fun m _ => ?_)
          calc ∑ i, (X i k * V k j) * (X i m * V m j')
              = ∑ i, (V k j * V m j') * (X i k * X i m) :=
                Finset.sum_congr rfl (fun i _ => by ring)
            _ = (V k j * V m j') * ∑ i, X i k * X i m := (Finset.mul_sum _ _ _).symm
            _ = V k j * (gram X k m * V m j') := by unfold gram; ring
      _ = ∑ k, V k j * (lam * V k j') := by
          exact Finset.sum_congr rfl (fun k _ => by rw [hlam k])
      _ = lam * ∑ k, V k j * V k j' := by
          rw [Finset.mul_sum]
          exact Finset.sum_congr rfl (fun k _ => by ring)
      _ = 0 := by rw [horth j j' hjj, mul_zero]
  unfold pearsonCorr
  rw [pcaScore_mean_zero X V hcent j, pcaScore_mean_zero X V hcent j']
  have hnum : (∑ i, (pcaScore X V j i - 0) * (pcaScore X V j' i - 0))
      = ∑ i, pcaScore X V j i * pcaScore X V j' i :=
    Finset.sum_congr rfl (fun i _ => by ring)
  rw [hnum, key, zero_div]

/-- The concrete centered 3-by-2 data matrix used to witness C1. -/
noncomputable def c1XW : Fin 3 → Fin 2 → ℝ := ![![1, 0], ![-1, 1], ![0, -1]]

/-- The concrete orthogonal eigenvector matrix of `gram c1XW`: columns
`(1, 1)` and `(1, -1)` with eigenvalues 1 and 3. -/
noncomputable def c1VW : Fin 2 → Fin 2 → ℝ := ![![1, 1], ![1, -1]]

/-- Closed instance of `c1_pca_scores_uncorrelated` at `c1XW`, `c1VW`: all
four hypotheses hold there and the two score columns have Pearson
correlation zero. -/
theorem c1_pca_scores_uncorrelated_witness :
    (∀ k, (∑ i, c1XW i k) = 0) ∧
    (∀ j, ∃ lam : ℝ, ∀ k, (∑ m, gram c1XW k m * c1VW m j) = lam * c1VW k j) ∧
    (∀ j j' : Fin 2, j ≠ j' → (∑ k, c1VW k j * c1VW k j') = 0) ∧
    (∀ j, (∑ i, (pcaScore c1XW c1VW j i - colMean (pcaScore c1XW c1VW j)) ^ 2) ≠ 0) ∧
    pearsonCorr (pcaScore c1XW c1VW 0) (pcaScore c1XW c1VW 1) = 0 := by
  have hcent : ∀ k, (∑ i, c1XW i k) = 0 := by
    intro k
    fin_cases k <;>
      simp [c1XW, Fin.sum_univ_three]
  have heig : ∀ j, ∃ lam : ℝ, ∀ k, (∑ m, gram c1XW k m * c1VW m j) = lam * c1VW k j := by
    intro j
    fin_cases j
    · refine ⟨1, ?_⟩
      intro k
      fin_cases k <;>
        norm_num [gram, c1XW, c1VW, Fin.sum_univ_two, Fin.sum_univ_three]
    · refine ⟨3, ?_⟩
      intro k
      fin_cases k <;>
        norm_num [gram, c1XW, c1VW, Fin.sum_univ_two, Fin.sum_univ_three]
  have horth : ∀ j j' : Fin 2, j ≠ j' → (∑ k, c1VW k j * c1VW k j') = 0 := by
    intro j j' hjj
    fin_cases j <;> fin_cases j' <;>
      first
        | exact absurd rfl hjj
        | norm_num [c1VW, Fin.sum_univ_two]
  have hmean : ∀ j, colMean (pcaScore c1XW c1VW j) = 0 :=
    pcaScore_mean_zero c1XW c1VW hcent
  have hvar : ∀ j, (∑ i, (pcaScore c1XW c1VW j i - colMean (pcaScore c1XW c1VW j)) ^ 2) ≠ 0 := by
    intro j
    rw [hmean j]
    fin_cases j <;>
      norm_num [pcaScore, c1XW, c1VW, Fin.sum_univ_two, Fin.sum_univ_three]
  exact ⟨hcent, heig, horth, hvar,
    c1_pca_scores_uncorrelated c1XW c1VW hcent heig horth hvar 0 1 (by decide)⟩

/-- The Box-Cox loop with a total per-column transform, written out: one
output column named `col + "_TF"` per input column, holding the transform of
that column, over the unchanged index. -/
def boxcoxLoopPure (bc : List Cell → List Cell) (df : DataFrame) : DataFrame :=
  let outCols := (List.range df.cols.length).map (fun i => bc (df.colAt i))
  ⟨df.index, df.cols.map (fun c => c ++ "_TF"),
   (List.range df.index.length).map (fun r => outCols.map (fun c => c.getD r Cell.nan))⟩

/-- Mapping a function that never fails is an overall success. -/
lemma mapM_ok {ε α β : Type} (f : α → β) :
    ∀ l : List α, l.mapM (fun a => Except.ok (ε := ε) (f a)) = Except.ok (l.map f) := by
  intro l
  induction l with
  | nil => rfl
  | cons a t ih =>
    rw [List.mapM_cons, ih]
    rfl

/-- Rebuilding a list from its positions is the identity. -/
lemma map_range_getD {α : Type} (l : List α) (d : α) :
    (List.range l.length).map (fun r => l.getD r d) = l := by
  apply List.ext_getElem
  · simp
  · intro i h₁ h₂
    simp only [List.getElem_map, List.getElem_range]
    rw [List.getD_eq_getElem?_getD, List.getElem?_eq_getElem h₂]
    rfl

/-- Appending the suffix `_TF` to column names is injective. -/
lemma append_TF_injective : Function.Injective (fun c : String => c ++ "_TF") := by
  intro a b h
  dsimp only at h
  apply String.ext
  have hd := congrArg String.data h
  rw [String.data_append, String.data_append] at hd
  exact List.append_cancel_right hd

/-- C8.  The Box-Cox step is applied independently per column: the loop
produces, for every column `col` of `nutr_df`, exactly one output column
named `col_TF` (the names are distinct when the input names are), whose
values are `boxcox` of exactly that input column and so depend on no other
column, and the output dataframe keeps the index of `nutr_df`. -/
theorem c8_boxcox_per_column (ε : Type) (bc : List Cell → List Cell) (df : DataFrame)
    (hbc : ∀ l, (bc l).length = l.length)
    (hwf : df.index.length = df.rows.length)
    (hnodup : df.cols.Nodup) :
    boxcoxLoop (fun l => Except.ok (ε := ε) (bc l)) df =
        Except.ok (boxcoxLoopPure bc df) ∧
      (boxcoxLoopPure bc df).index = df.index ∧
      (boxcoxLoopPure bc df).cols = df.cols.map (fun c => c ++ "_TF") ∧
      (boxcoxLoopPure bc df).cols.Nodup ∧
      (∀ c ∈ df.cols, (c ++ "_TF") ∈ (boxcoxLoopPure bc df).cols) ∧
      (∀ i < df.cols.length, (boxcoxLoopPure bc df).colAt i = bc (df.colAt i)) := by
  refine ⟨?_, rfl, rfl, ?_, ?_, ?_⟩
  · unfold boxcoxLoop boxcoxLoopPure
    rw [mapM_ok, List.map_map]
    rfl
  · exact List.Nodup.map append_TF_injective hnodup
  · intro c hc
    exact List.mem_map_of_mem _ hc
  · intro i hi
    show ((List.range df.index.length).map
        (fun r => ((List.range df.cols.length).map (fun k => bc (df.colAt k))).map
          (fun c => c.getD r Cell.nan))).map (fun row => row.getD i Cell.nan)
      = bc (df.colAt i)
    rw [List.map_map]
    have hcol : ∀ r : ℕ,
        (((List.range df.cols.length).map (fun k => bc (df.colAt k))).map
          (fun c => c.getD r Cell.nan)).getD i Cell.nan
          = (bc (df.colAt i)).getD r Cell.nan := by
      intro r
      have hlt : i < (((List.range df.cols.length).map (fun k => bc (df.colAt k))).map
          (fun c => c.getD r Cell.nan)).length := by
        simp [hi]
      rw [List.getD_eq_getElem?_getD, List.getElem?_eq_getElem hlt]
      simp only [List.getElem_map, List.getElem_range]
      rfl
    calc (List.range df.index.length).map ((fun row : List Cell => row.getD i Cell.nan) ∘
          (fun r => ((List.range df.cols.length).map (fun k => bc (df.colAt k))).map
            (fun c => c.getD r Cell.nan)))
        = (List.range df.index.length).map (fun r => (bc (df.colAt i)).getD r Cell.nan) :=
          List.map_congr_left (fun r _ => hcol r)
      _ = bc (df.colAt i) := by
          have hlen : df.index.length = (bc (df.colAt i)).length := by
            rw [hbc]
            unfold DataFrame.colAt
            rw [List.length_map, hwf]
          rw [hlen]
          exact map_range_getD _ _

/-- Closed instance of `c8_boxcox_per_column` on a 2-by-2 frame with the
identity transform: the loop succeeds and renames `A`, `B` to `A_TF`,
`B_TF` over the same index. -/
theorem c8_boxcox_per_column_witness :
    boxcoxLoop (fun l => Except.ok (ε := ℕ) l)
        ⟨[Cell.num 0, Cell.num 1], ["A", "B"],
         [[Cell.num 1, Cell.num 2], [Cell.num 3, Cell.num 4]]⟩ =
      Except.ok (boxcoxLoopPure (fun l => l)
        ⟨[Cell.num 0, Cell.num 1], ["A", "B"],
         [[Cell.num 1, Cell.num 2], [Cell.num 3, Cell.num 4]]⟩) ∧
    (boxcoxLoopPure (fun l => l)
        ⟨[Cell.num 0, Cell.num 1], ["A", "B"],
         [[Cell.num 1, Cell.num 2], [Cell.num 3, Cell.num 4]]⟩).cols =
      ["A_TF", "B_TF"] :=
  ⟨(c8_boxcox_per_column ℕ (fun l => l)
      ⟨[Cell.num 0, Cell.num 1], ["A", "B"],
       [[Cell.num 1, Cell.num 2], [Cell.num 3, Cell.num 4]]⟩
      (fun _ => rfl) rfl (by decide)).1, by decide⟩

/-- The data positions of `desc_df` once `NDB_No` (position 0) has become
the index. -/
def descDataPositions : List Nat := [1, 2, 50, 51, 52, 53]

/-- The names of the columns `df.iloc[:, :-5]` selects. -/
def nutrPreCols (df : DataFrame) : List String :=
  (List.range (df.cols.length - 5)).map (fun p => df.cols.getD p "")

/-- The column positions of `nutr_df` after the `FoodGroup` / `Shrt_Desc`
drop and the move of `NDB_No` (the first kept position) into the index. -/
def nutrKeptPositions (df : DataFrame) : List Nat :=
  ((List.range (df.cols.length - 5)).filter
    (fun p => !(decide (df.cols.getD p "" ∈ ["FoodGroup", "Shrt_Desc"])))).tail

/-- The column positions of `nutr_df` after also dropping the three
correlated columns. -/
def nutrFinalPositions (df : DataFrame) : List Nat :=
  (nutrKeptPositions df).filter (fun p => !(decide (df.cols.getD p "" ∈ corrCols)))

/-- The positions `[0, 1, 2] + [i for i in range(50, 54)]` spelled out. -/
lemma descPositions_concrete : descPositions = [0, 1, 2, 50, 51, 52, 53] := rfl

/-- Filtering a list of mapped pairs on the first component and projecting
the second is filtering the underlying list and mapping. -/
lemma zip_map_filter_snd {α β γ : Type} (f : α → β) (g : α → γ) (q : β → Bool) (l : List α) :
    (((l.map f).zip (l.map g)).filter (fun x => q x.1)).map Prod.snd
      = (l.filter (fun a => q (f a))).map g := by
  rw [List.zip_map', List.filter_map, List.map_map]
  rfl

/-- Filtering a mapped list is mapping the filtered list. -/
lemma map_filter_names {α β : Type} (f : α → β) (q : β → Bool) (l : List α) :
    (l.map f).filter q = (l.filter (fun a => q (f a))).map f :=
  List.filter_map f l

/-- Evaluation of the `desc_df` cells on any frame with at least 54 columns
whose first column is `NDB_No`: the index becomes the `NDB_No` column and
each row keeps, unmodified and in order, the cells at positions 1, 2 and
50-53 of the corresponding input row. -/
lemma cellDescDf_eval (df : DataFrame) (hlen : 54 ≤ df.cols.length)
    (hhead : df.cols.getD 0 "" = "NDB_No") :
    cellDescDf df = some ⟨df.rows.map (fun r => r.getD 0 Cell.nan),
      descDataPositions.map (fun p => df.cols.getD p ""),
      df.rows.map (fun r => descDataPositions.map (fun p => r.getD p Cell.nan))⟩ := by
  unfold cellDescDf
  have hbound : ∀ p ∈ descPositions, p < df.cols.length := by
    intro p hp
    rw [descPositions_concrete] at hp
    fin_cases hp <;> omega
  rw [DataFrame.ilocCols, if_pos hbound, Option.some_bind, DataFrame.setIndex]
  have hcols : descPositions.map (fun p => df.cols.getD p "") =
      "NDB_No" :: descDataPositions.map (fun p => df.cols.getD p "") := by
    rw [descPositions_concrete, descDataPositions]
    simp only [List.map_cons]
    rw [hhead]
  rw [hcols, List.findIdx?_cons]
  rw [if_pos (by simp)]
  show some (⟨
      (df.rows.map (fun r => descPositions.map (fun p => r.getD p Cell.nan))).map
        (fun r => r.getD 0 Cell.nan),
      ("NDB_No" :: descDataPositions.map (fun p => df.cols.getD p "")).eraseIdx 0,
      (df.rows.map (fun r => descPositions.map (fun p => r.getD p Cell.nan))).map
        (fun r => r.eraseIdx 0)⟩ : DataFrame)
    = some ⟨df.rows.map (fun r => r.getD 0 Cell.nan),
      descDataPositions.map (fun p => df.cols.getD p ""),
      df.rows.map (fun r => descDataPositions.map (fun p => r.getD p Cell.nan))⟩
  have hA : (df.rows.map (fun r => descPositions.map (fun p => r.getD p Cell.nan))).map
      (fun r => r.getD 0 Cell.nan) = df.rows.map (fun r => r.getD 0 Cell.nan) := by
    rw [List.map_map]
    refine List.map_congr_left (fun r _ => ?_)
    show (descPositions.map (fun p => r.getD p Cell.nan)).getD 0 Cell.nan = r.getD 0 Cell.nan
    rw [descPositions_concrete]
    rfl
  have hC : (df.rows.map (fun r => descPositions.map (fun p => r.getD p Cell.nan))).map
      (fun r => r.eraseIdx 0) = df.rows.map (fun r => descDataPositions.map
        (fun p => r.getD p Cell.nan)) := by
    rw [List.map_map]
    refine List.map_congr_left (fun r _ => ?_)
    show (descPositions.map (fun p => r.getD p Cell.nan)).eraseIdx 0
      = descDataPositions.map (fun p => r.getD p Cell.nan)
    rw [descPositions_concrete, descDataPositions]
    rfl
  rw [hA, hC]
  rfl

/-- The kept positions of `df.iloc[:, :-5]` after the `FoodGroup` /
`Shrt_Desc` drop start with position 0 (`NDB_No`). -/
lemma filter_head_zero (df : DataFrame) (hlen : 54 ≤ df.cols.length)
    (hhead : df.cols.getD 0 "" = "NDB_No") :
    (List.range (df.cols.length - 5)).filter
      (fun p => !(decide (df.cols.getD p "" ∈ ["FoodGroup", "Shrt_Desc"])))
    = 0 :: nutrKeptPositions df := by
  obtain ⟨m, hm⟩ : ∃ m, df.cols.length - 5 = m + 1 := ⟨df.cols.length - 6, by omega⟩
  unfold nutrKeptPositions
  rw [hm, List.range_succ_eq_map, List.filter_cons]
  have h0 : (!(decide (df.cols.getD 0 "" ∈ ["FoodGroup", "Shrt_Desc"]))) = true := by
    rw [hhead]
    decide
  rw [if_pos h0]
  rfl

/-- Dropping named columns from a frame whose columns and rows are position
selections: the kept entries are the positions whose column name is not
listed. -/
lemma drop_positions_frame (idx : List Cell) (cols : List String)
    (rows : List (List Cell)) (ps : List Nat) (names : List String)
    (hall : ∀ nm ∈ names, nm ∈ ps.map (fun p => cols.getD p "")) :
    DataFrame.drop ⟨idx, ps.map (fun p => cols.getD p ""),
        rows.map (fun r => ps.map (fun p => r.getD p Cell.nan))⟩ names
      = some ⟨idx,
          (ps.filter (fun p => !(decide (cols.getD p "" ∈ names)))).map
            (fun p => cols.getD p ""),
          rows.map (fun r =>
            (ps.filter (fun p => !(decide (cols.getD p "" ∈ names)))).map
              (fun p => r.getD p Cell.nan))⟩ := by
  rw [DataFrame.drop, if_pos hall]
  refine congrArg some ?_
  refine congrArg₂ (DataFrame.mk idx) ?_ ?_
  · exact map_filter_names (fun p => cols.getD p "")
      (fun c => !(decide (c ∈ names))) ps
  · show (rows.map (fun r => ps.map (fun p => r.getD p Cell.nan))).map
        (fun rr => (((ps.map (fun p => cols.getD p "")).zip rr).filter
          (fun x => !(decide (x.1 ∈ names)))).map Prod.snd)
      = rows.map (fun r =>
          (ps.filter (fun p => !(decide (cols.getD p "" ∈ names)))).map
            (fun p => r.getD p Cell.nan))
    rw [List.map_map]
    refine List.map_congr_left (fun r _ => ?_)
    exact zip_map_filter_snd (fun p => cols.getD p "") (fun p => r.getD p Cell.nan)
      (fun c => !(decide (c ∈ names))) ps

/-- `set_index('NDB_No')` on a frame whose first column is `NDB_No` moves the
head cell of every row into the index and keeps the tails. -/
lemma setIndex_head_frame (idx : List Cell) (restCols : List String)
    (rows : List (List Cell)) (h0 : List Cell → Cell) (ht : List Cell → List Cell) :
    DataFrame.setIndex ⟨idx, "NDB_No" :: restCols,
        rows.map (fun r => h0 r :: ht r)⟩ "NDB_No"
      = some ⟨rows.map h0, restCols, rows.map ht⟩ := by
  rw [DataFrame.setIndex, List.findIdx?_cons, if_pos (by simp)]
  refine congrArg some ?_
  show DataFrame.mk
      ((rows.map (fun r => h0 r :: ht r)).map (fun r => r.getD 0 Cell.nan))
      (("NDB_No" :: restCols).eraseIdx 0)
      ((rows.map (fun r => h0 r :: ht r)).map (fun r => r.eraseIdx 0))
    = DataFrame.mk (rows.map h0) restCols (rows.map ht)
  refine congrArg₂ (fun i rr => DataFrame.mk i restCols rr) ?_ ?_
  · rw [List.map_map]
    exact List.map_congr_left (fun r _ => rfl)
  · rw [List.map_map]
    exact List.map_congr_left (fun r _ => rfl)

/-- Evaluation of the `nutr_df` cells on any frame with at least 54 columns,
first column `NDB_No`, and the five dropped names among its first
`len - 5` columns: the index becomes the `NDB_No` column and each row keeps,
unmodified and in order, the cells at the surviving nutrient positions of
the corresponding input row. -/
lemma cellNutrDf_eval (df : DataFrame) (hlen : 54 ≤ df.cols.length)
    (hhead : df.cols.getD 0 "" = "NDB_No")
    (hFG : "FoodGroup" ∈ nutrPreCols df) (hSD : "Shrt_Desc" ∈ nutrPreCols df)
    (hcorr : ∀ c ∈ corrCols, c ∈ nutrPreCols df) :
    cellNutrDf df = some ⟨df.rows.map (fun r => r.getD 0 Cell.nan),
      (nutrFinalPositions df).map (fun p => df.cols.getD p ""),
      df.rows.map (fun r => (nutrFinalPositions df).map (fun p => r.getD p Cell.nan))⟩ := by
  unfold cellNutrDf
  have hbound : ∀ p ∈ List.range (df.cols.length - 5), p < df.cols.length := by
    intro p hp
    have := List.mem_range.mp hp
    omega
  rw [DataFrame.ilocCols, if_pos hbound, Option.some_bind]
  have hall₁ : ∀ nm ∈ ["FoodGroup", "Shrt_Desc"],
      nm ∈ (List.range (df.cols.length - 5)).map (fun p => df.cols.getD p "") := by
    intro nm hnm
    rcases List.mem_cons.mp hnm with rfl | hnm
    · exact hFG
    · rcases List.mem_cons.mp hnm with rfl | hnm
      · exact hSD
      · exact absurd hnm (List.not_mem_nil nm)
  rw [drop_positions_frame df.index df.cols df.rows
    (List.range (df.cols.length - 5)) ["FoodGroup", "Shrt_Desc"] hall₁,
    Option.some_bind]
  rw [filter_head_zero df hlen hhead]
  simp only [List.map_cons]
  rw [hhead]
  rw [setIndex_head_frame df.index
    ((nutrKeptPositions df).map (fun p => df.cols.getD p "")) df.rows
    (fun r => r.getD 0 Cell.nan)
    (fun r => (nutrKeptPositions df).map (fun p => r.getD p Cell.nan)),
    Option.some_bind]
  have hall₂ : ∀ c ∈ corrCols,
      c ∈ (nutrKeptPositions df).map (fun p => df.cols.getD p "") := by
    intro c hc
    obtain ⟨p, hp, hpc⟩ := List.mem_map.mp (hcorr c hc)
    have hq : (!(decide (df.cols.getD p "" ∈ ["FoodGroup", "Shrt_Desc"]))) = true := by
      rw [hpc]
      fin_cases hc <;> decide
    have hpk : p ∈ (List.range (df.cols.length - 5)).filter
        (fun p => !(decide (df.cols.getD p "" ∈ ["FoodGroup", "Shrt_Desc"]))) :=
      List.mem_filter.mpr ⟨hp, hq⟩
    rw [filter_head_zero df hlen hhead] at hpk
    rcases List.mem_cons.mp hpk with rfl | hpk
    · rw [hhead] at hpc
      subst hpc
      exact absurd hc (by decide)
    · exact List.mem_map.mpr ⟨p, hpk, hpc⟩
  rw [drop_positions_frame (df.rows.map (fun r => r.getD 0 Cell.nan)) df.cols df.rows
    (nutrKeptPositions df) corrCols hall₂]
  rfl

/-- C10.  The column split preserves rows and agrees on the key: on the
post-dropna dataframe, `desc_df` (columns 0-2 and 50-53) and `nutr_df` (all
but the last five columns, then dropping `FoodGroup`, `Shrt_Desc` and the
correlated columns) each hold exactly one row per input row, in the same
order and with unmodified cell values (position selections from the
corresponding input row), and after `set_index('NDB_No')` both are indexed
by the identical sequence of `NDB_No` values. -/
theorem c10_split_preserves_rows_and_key (df : DataFrame)
    (hlen : 54 ≤ df.cols.length)
    (hhead : df.cols.getD 0 "" = "NDB_No")
    (hFG : "FoodGroup" ∈ nutrPreCols df) (hSD : "Shrt_Desc" ∈ nutrPreCols df)
    (hcorr : ∀ c ∈ corrCols, c ∈ nutrPreCols df) :
    ∃ desc nutr : DataFrame,
      cellDescDf df = some desc ∧ cellNutrDf df = some nutr ∧
      desc.index = df.rows.map (fun r => r.getD 0 Cell.nan) ∧
      nutr.index = desc.index ∧
      desc.rows = df.rows.map (fun r =>
        descDataPositions.map (fun p => r.getD p Cell.nan)) ∧
      nutr.rows = df.rows.map (fun r =>
        (nutrFinalPositions df).map (fun p => r.getD p Cell.nan)) ∧
      desc.rows.length = df.rows.length ∧ nutr.rows.length = df.rows.length ∧
      desc.index.length = df.rows.length := by
  refine ⟨_, _, cellDescDf_eval df hlen hhead,
    cellNutrDf_eval df hlen hhead hFG hSD hcorr,
    rfl, rfl, rfl, rfl, ?_, ?_, ?_⟩ <;> simp

/-- A concrete 54-column, 1-row post-dropna frame for the C10 witness. -/
def c10DfW : DataFrame :=
  ⟨[Cell.num 0],
   ["NDB_No", "FoodGroup", "Shrt_Desc", "Folate_DFE_(µg)", "Vit_A_RAE", "Vit_D_IU"]
     ++ (List.range 48).map (fun i => "N" ++ toString i),
   [List.replicate 54 (Cell.num 1)]⟩

/-- Closed instance of `c10_split_preserves_rows_and_key` at `c10DfW`. -/
theorem c10_split_preserves_rows_and_key_witness :
    ∃ desc nutr : DataFrame,
      cellDescDf c10DfW = some desc ∧ cellNutrDf c10DfW = some nutr ∧
      desc.index = c10DfW.rows.map (fun r => r.getD 0 Cell.nan) ∧
      nutr.index = desc.index ∧
      desc.rows = c10DfW.rows.map (fun r =>
        descDataPositions.map (fun p => r.getD p Cell.nan)) ∧
      nutr.rows = c10DfW.rows.map (fun r =>
        (nutrFinalPositions c10DfW).map (fun p => r.getD p Cell.nan)) ∧
      desc.rows.length = c10DfW.rows.length ∧
      nutr.rows.length = c10DfW.rows.length ∧
      desc.index.length = c10DfW.rows.length :=
  c10_split_preserves_rows_and_key c10DfW (by decide) (by decide) (by decide)
    (by decide) (by decide)

/-- Reading past the score cells of a joined row lands in the second part. -/
lemma getD_append_right_cells (l₁ l₂ : List Cell) (k : Nat) (h : l₁.length ≤ k) :
    (l₁ ++ l₂).getD k Cell.nan = l₂.getD (k - l₁.length) Cell.nan := by
  rw [List.getD_eq_getElem?_getD, List.getD_eq_getElem?_getD,
    List.getElem?_append_right h]

/-- Any position of an all-NaN filler reads NaN. -/
lemma getD_replicate_nan (n k : Nat) :
    (List.replicate n Cell.nan).getD k Cell.nan = Cell.nan := by
  rw [List.getD_eq_getElem?_getD]
  rcases h : (List.replicate n Cell.nan)[k]? with _ | c
  · rfl
  · obtain ⟨hlt, hc⟩ := List.getElem?_eq_some_iff.mp h
    rw [← hc, List.getElem_replicate]
    rfl

/-- A list of length five is a five-element literal. -/
lemma eq_five_of_length (l : List Cell) (h : l.length = 5) :
    ∃ a b c d e, l = [a, b, c, d, e] := by
  rcases l with _ | ⟨a, l⟩
  · simp at h
  rcases l with _ | ⟨b, l⟩
  · simp at h
  rcases l with _ | ⟨c, l⟩
  · simp at h
  rcases l with _ | ⟨d, l⟩
  · simp at h
  rcases l with _ | ⟨e, l⟩
  · simp at h
  have hl : l = [] := by
    refine List.eq_nil_of_length_eq_zero ?_
    simp only [List.length_cons] at h
    omega
  exact ⟨a, b, c, d, e, by rw [hl]⟩

/-- Membership is preserved by sorted insertion. -/
lemma mem_insertSortedBy {α : Type} (le : α → α → Bool) (a x : α) (l : List α) :
    x ∈ insertSortedBy le a l ↔ x = a ∨ x ∈ l := by
  induction l with
  | nil => simp [insertSortedBy]
  | cons b t ih =>
    unfold insertSortedBy
    by_cases hle : le a b
    · rw [if_pos hle]
      simp [List.mem_cons]
    · rw [if_neg hle]
      simp only [List.mem_cons, ih]
      tauto

/-- Sorting reorders but neither adds nor removes rows. -/
lemma mem_sortRowsBy {α : Type} (le : α → α → Bool) (x : α) (l : List α) :
    x ∈ sortRowsBy le l ↔ x ∈ l := by
  induction l with
  | nil => simp [sortRowsBy]
  | cons a t ih =>
    unfold sortRowsBy
    rw [mem_insertSortedBy]
    simp [List.mem_cons, ih]

/-- An all-NaN series has an empty `value_counts`. -/
lemma valueCounts_eq_nil (l : List Cell) (h : ∀ x ∈ l, x = Cell.nan) :
    valueCounts l = [] := by
  unfold valueCounts
  have hf : l.filter (fun c => !(decide (c = Cell.nan))) = [] := by
    rw [List.filter_eq_nil_iff]
    intro a ha
    rw [h a ha]
    decide
  rw [hf]
  rfl

/-- C9.  `pca_df = pd.DataFrame(pca[:, :5], index=df.index)` followed by
`pca_df.join(desc_df)` matches `pca_df`'s labels against `desc_df`'s
`NDB_No` labels: whenever the two label sets are disjoint, every joined
descriptive cell (position 5 onward, including `FoodGroup`) is NaN in every
row, and consequently every later
`pca_df.sort_values(by=...)['FoodGroup'][:500].value_counts()` is empty. -/
theorem c9_join_on_disjoint_labels_all_nan (scores : List (List Cell))
    (idx : List Cell) (desc : DataFrame)
    (hscores : ∀ r ∈ scores, 5 ≤ r.length)
    (hdcols : desc.cols = ["FoodGroup", "Shrt_Desc", "GmWt_Desc1", "GmWt_2",
      "GmWt_Desc2", "Refuse_Pct"])
    (hdisj : ∀ l ∈ idx, ∀ l' ∈ desc.index, l ≠ l') :
    (∀ r ∈ ((cellPcaDf scores idx).join desc).rows, ∀ k, 5 ≤ k →
      r.getD k Cell.nan = Cell.nan) ∧
    ∃ final, cellJoinDropRename (cellPcaDf scores idx) desc = some final ∧
      ∀ byName : String,
        valueCounts (((final.sortValues byName).colByName "FoodGroup").take 500)
          = [] := by
  have hfind : ∀ p ∈ idx.zip (cellPcaDf scores idx).rows,
      (desc.index.zip desc.rows).find? (fun q => decide (q.1 = p.1)) = none := by
    intro p hp
    rw [List.find?_eq_none]
    intro q hq
    simp only [decide_eq_true_eq]
    intro h
    exact hdisj p.1 (List.of_mem_zip hp).1 q.1 (List.of_mem_zip hq).1 h.symm
  have hrows : ((cellPcaDf scores idx).join desc).rows
      = (idx.zip (cellPcaDf scores idx).rows).map
          (fun p => p.2 ++ List.replicate desc.cols.length Cell.nan) := by
    refine List.map_congr_left (fun p hp => ?_)
    rw [hfind p hp]
  have h6 : desc.cols.length = 6 := by rw [hdcols]; rfl
  have hshape : ∀ r ∈ ((cellPcaDf scores idx).join desc).rows,
      ∃ a b c d e, r = [a, b, c, d, e] ++ List.replicate 6 Cell.nan := by
    intro r hr
    rw [hrows] at hr
    obtain ⟨p, hp, rfl⟩ := List.mem_map.mp hr
    have hp2 : p.2 ∈ (cellPcaDf scores idx).rows := (List.of_mem_zip hp).2
    obtain ⟨s, hs, hts⟩ := List.mem_map.mp hp2
    have hlen5 : p.2.length = 5 := by
      rw [← hts, List.length_take]
      exact min_eq_left (hscores s hs)
    obtain ⟨a, b, c, d, e, h5⟩ := eq_five_of_length _ hlen5
    exact ⟨a, b, c, d, e, by rw [h5, h6]⟩
  constructor
  · intro r hr k hk
    obtain ⟨a, b, c, d, e, rfl⟩ := hshape r hr
    rw [getD_append_right_cells _ _ k (by simpa using hk)]
    exact getD_replicate_nan _ _
  · have hjcols : ((cellPcaDf scores idx).join desc).cols
        = ["0", "1", "2", "3", "4", "FoodGroup", "Shrt_Desc", "GmWt_Desc1",
           "GmWt_2", "GmWt_Desc2", "Refuse_Pct"] := by
      show ["0", "1", "2", "3", "4"] ++ desc.cols = _
      rw [hdcols]
      rfl
    have hall : ∀ nm ∈ pcaDropNames, nm ∈ ((cellPcaDf scores idx).join desc).cols := by
      rw [hjcols]
      decide
    obtain ⟨dropped, hdrop⟩ : ∃ d, ((cellPcaDf scores idx).join desc).drop pcaDropNames
        = some d := by
      rw [DataFrame.drop, if_pos hall]
      exact ⟨_, rfl⟩
    have hdcolsF : dropped.cols = ["0", "1", "2", "3", "4", "FoodGroup"] := by
      rw [drop_eq hdrop]
      show (((cellPcaDf scores idx).join desc).cols).filter
          (fun c => !(decide (c ∈ pcaDropNames)))
        = ["0", "1", "2", "3", "4", "FoodGroup"]
      rw [hjcols]
      rfl
    have hdrows : ∀ r' ∈ dropped.rows, r'.getD 5 Cell.nan = Cell.nan := by
      rw [drop_eq hdrop]
      intro r' hr'
      obtain ⟨r, hr, rfl⟩ := List.mem_map.mp hr'
      obtain ⟨a, b, c, d, e, rfl⟩ := hshape r hr
      rw [hjcols]
      rfl
    have hfinal : cellJoinDropRename (cellPcaDf scores idx) desc
        = some (dropped.rename renameMap) := by
      unfold cellJoinDropRename
      rw [hdrop]
      rfl
    refine ⟨dropped.rename renameMap, hfinal, ?_⟩
    intro byName
    have hfcols : (dropped.rename renameMap).cols
        = ["c1", "c2", "c3", "c4", "c5", "FoodGroup"] := by
      show dropped.cols.map _ = _
      rw [hdcolsF]
      rfl
    have hidx5 : ((dropped.rename renameMap).sortValues byName).cols.findIdx
        (fun c => decide (c = "FoodGroup")) = 5 := by
      show (dropped.rename renameMap).cols.findIdx _ = 5
      rw [hfcols]
      rfl
    have hsortrows : ∀ r ∈ ((dropped.rename renameMap).sortValues byName).rows,
        r ∈ dropped.rows := by
      intro r hr
      obtain ⟨p, hp, rfl⟩ := List.mem_map.mp hr
      have hp' := (mem_sortRowsBy _ p _).mp hp
      exact (List.of_mem_zip hp').2
    refine valueCounts_eq_nil _ ?_
    intro x hx
    have hx' := List.mem_of_mem_take hx
    unfold DataFrame.colByName at hx'
    rw [hidx5] at hx'
    obtain ⟨r, hr, rfl⟩ := List.mem_map.mp hx'
    exact hdrows r (hsortrows r hr)

/-- A one-row score matrix (six components) for the C9 witness. -/
def c9ScoresW : List (List Cell) :=
  [[Cell.num 1, Cell.num 2, Cell.num 3, Cell.num 4, Cell.num 5, Cell.num 6]]

/-- The score-frame index (a positional label, 0) for the C9 witness. -/
def c9IdxW : List Cell := [Cell.num 0]

/-- A one-row `desc_df` indexed by the NDB number 1001, disjoint from
`c9IdxW`, for the C9 witness. -/
def c9DescW : DataFrame :=
  ⟨[Cell.num 1001],
   ["FoodGroup", "Shrt_Desc", "GmWt_Desc1", "GmWt_2", "GmWt_Desc2", "Refuse_Pct"],
   [[Cell.str "Dairy", Cell.str "Milk", Cell.str "1 cup", Cell.num 2,
     Cell.str "2 cup", Cell.num 0]]⟩

/-- Closed instance of `c9_join_on_disjoint_labels_all_nan` at the concrete
one-row frames with disjoint labels 0 and 1001. -/
theorem c9_join_on_disjoint_labels_all_nan_witness :
    (∀ r ∈ ((cellPcaDf c9ScoresW c9IdxW).join c9DescW).rows, ∀ k, 5 ≤ k →
      r.getD k Cell.nan = Cell.nan) ∧
    ∃ final, cellJoinDropRename (cellPcaDf c9ScoresW c9IdxW) c9DescW = some final ∧
      ∀ byName : String,
        valueCounts (((final.sortValues byName).colByName "FoodGroup").take 500)
          = [] :=
  c9_join_on_disjoint_labels_all_nan c9ScoresW c9IdxW c9DescW
    (by decide) (by decide) (by decide)

end Reactors
